import Mathlib

/-!
Verification of the Nas-Everything-search index build-and-serve engine
(`main.go`), via a shallow embedding of its store, rebuild transaction,
scheduler and HTTP query handler.

Modelling conventions:
* SQLite tables are lists of row structures; `INTEGER PRIMARY KEY` surrogate
  ids are modelled by a `next id` counter (SQLite assigns `max(id)+1`, which
  coincides with the counter because the rebuild starts from cleared tables
  and only appends rows).
* The rebuild transaction (`db.Begin` … `tx.Commit`/`tx.Rollback`, main.go
  lines 94-174) is modelled by building a pending `RebuildState` from the
  cleared tables; commit publishes it as the new `Store`, rollback discards
  it and keeps the committed `Store` unchanged.
* `log.Fatal` (which calls `os.Exit(1)`) is modelled by the
  `ScanOutcome.fatalExit` constructor: the process terminates, and the
  committed store it leaves behind is recorded.
* SQLite `LIKE` (used by the `/get` handler, main.go line 289/295) is
  modelled character-exactly: `%` matches any sequence, `_` any single
  character, and ordinary characters compare ASCII-case-insensitively
  (SQLite folds only A-Z by default; Lean's `Char.toLower` is likewise
  ASCII-only).
* Go's `encoding/json` marshalling of the handler's `[]FileInfo` slice is
  modelled including the nil-slice-to-`null` behaviour: the handler declares
  `var files []FileInfo` and only appends, so the slice is nil exactly when
  there are no rows, and `json.Encoder.Encode` then writes `null` plus a
  newline.
-/

/-- One tuple produced by the crawler (`filepath.Walk` callback, main.go
lines 127-165): slash-normalized owning directory, base filename, size and
RFC3339 modification time. -/
structure FileTuple where
  dir : String
  filename : String
  size : Int
  mtime : String
deriving DecidableEq, Repr

/-- A row of the `paths` table (main.go lines 48-51): surrogate id and the
unique directory path. -/
structure PathRow where
  id : Nat
  path : String
deriving DecidableEq, Repr

/-- A row of the `files` table (main.go lines 52-59). -/
structure FileRow where
  id : Nat
  path_id : Nat
  filename : String
  size : Int
  create_time : String
deriving DecidableEq, Repr

/-- The committed contents of the SQLite store: the `paths` and `files`
tables. -/
structure Store where
  paths : List PathRow
  files : List FileRow
deriving DecidableEq, Repr

/-- The in-progress state of one rebuild transaction: the pending table
contents, the `pathCache` map (main.go line 107) and the next surrogate ids
SQLite would assign. -/
structure RebuildState where
  paths : List PathRow
  files : List FileRow
  cache : List (String × Nat)
  nextPathId : Nat
  nextFileId : Nat
deriving DecidableEq, Repr

/-- Lookup in the `pathCache` map (`pathID, ok := pathCache[dir]`, main.go
line 137); later insertions are consed on the front. -/
def cacheLookup : List (String × Nat) → String → Option Nat
  | [], _ => none
  | e :: es, d => if e.1 = d then some e.2 else cacheLookup es d

/-- `anySuffix f s`: does `f` accept some (not necessarily proper) suffix
of `s`? Used to give `%` its "match any sequence" semantics. -/
def anySuffix (f : List Char → Bool) : List Char → Bool
  | [] => f []
  | c :: cs => f (c :: cs) || anySuffix f cs

/-- SQLite `LIKE` pattern matching (default, no ESCAPE clause): `%` matches
any sequence of characters, `_` matches exactly one character, and other
pattern characters match ASCII-case-insensitively. -/
def likeMatch : List Char → List Char → Bool
  | [], s => s.isEmpty
  | q :: ps, s =>
    if q = '%' then anySuffix (likeMatch ps) s
    else
      match s with
      | [] => false
      | c :: cs => (q = '_' || q.toLower == c.toLower) && likeMatch ps cs

/-- Exact (case-sensitive) list-of-characters matching at the front. -/
def startsWithEq : List Char → List Char → Bool
  | [], _ => true
  | _ :: _, [] => false
  | a :: as, b :: bs => (a == b) && startsWithEq as bs

/-- `occursIn t f`: the character sequence `t` occurs contiguously inside
`f` (exact, case-sensitive substring — the spec's notion of substring). -/
def occursIn (t : List Char) : List Char → Bool
  | [] => startsWithEq t []
  | c :: fs => startsWithEq t (c :: fs) || occursIn t fs

/-- ASCII-case-insensitive matching at the front. -/
def startsWithCI : List Char → List Char → Bool
  | [], _ => true
  | _ :: _, [] => false
  | a :: as, b :: bs => (a.toLower == b.toLower) && startsWithCI as bs

/-- `occursCI t f`: `t` occurs contiguously inside `f` up to ASCII case. -/
def occursCI (t : List Char) : List Char → Bool
  | [] => startsWithCI t []
  | c :: fs => startsWithCI t (c :: fs) || occursCI t fs

/-- ASCII lowercasing of a character list. -/
def lowers (l : List Char) : List Char := l.map Char.toLower

/-- The search term contains neither of SQLite LIKE's wildcard characters. -/
def noWildcards (l : List Char) : Bool := l.all (fun c => !(c = '%' : Bool) && !(c = '_' : Bool))

/-- The `JOIN paths p ON f.path_id = p.id` lookup for one file row: the
first `paths` row whose id matches, combined into a result tuple
(`SELECT p.path, f.filename, f.size, f.create_time`, main.go lines 285-289). -/
def rowTuple (paths : List PathRow) (f : FileRow) : Option FileTuple :=
  (paths.find? (fun p => p.id == f.path_id)).map
    (fun p => ⟨p.path, f.filename, f.size, f.create_time⟩)

/-- The full join of `files` with `paths` as result tuples. -/
def resultTuples (paths : List PathRow) (files : List FileRow) : List FileTuple :=
  files.filterMap (rowTuple paths)

/-- The LIKE pattern the handler builds from the search key:
`"%" + key + "%"` (main.go line 295). -/
def keyPattern (key : String) : List Char := '%' :: (key.data ++ ['%'])

/-- The `/get?type=file` query (main.go lines 285-295): filter `files` by
`filename LIKE '%key%'`, joined with the owning directory path. -/
def searchFiles (st : Store) (key : String) : List FileTuple :=
  resultTuples st.paths (st.files.filter (fun f => likeMatch (keyPattern key) f.filename.data))

/-- Lowercase hex digit, as `encoding/json` uses in `\u00xx` escapes. -/
def hexDigit (n : Nat) : Char :=
  if n < 10 then Char.ofNat (48 + n) else Char.ofNat (87 + n)

/-- Go `encoding/json` escaping of one character inside a string literal
(default encoder: HTML-escapes `<`, `>`, `&`, escapes `"`, `\`, control
characters, U+2028 and U+2029). -/
def escapeChar (c : Char) : String :=
  if c = '"' then "\\\""
  else if c = '\\' then "\\\\"
  else if c = '\n' then "\\n"
  else if c = '\r' then "\\r"
  else if c = '\t' then "\\t"
  else if c.toNat < 32 then
    "\\u00" ++ String.mk [hexDigit (c.toNat / 16), hexDigit (c.toNat % 16)]
  else if c = '<' then "\\u003c"
  else if c = '>' then "\\u003e"
  else if c = '&' then "\\u0026"
  else if c.toNat = 0x2028 then "\\u2028"
  else if c.toNat = 0x2029 then "\\u2029"
  else String.singleton c

/-- Go `encoding/json` string literal. -/
def escapeString (s : String) : String :=
  "\"" ++ (s.data.foldr (fun c acc => escapeChar c ++ acc) "") ++ "\""

/-- Go `encoding/json` object for one `FileInfo` (struct tags `path`,
`filename`, `size`, `create_time`, main.go lines 20-25). -/
def encodeFileInfo (f : FileTuple) : String :=
  "\x7b\"path\":" ++ escapeString f.dir
    ++ ",\"filename\":" ++ escapeString f.filename
    ++ ",\"size\":" ++ toString f.size
    ++ ",\"create_time\":" ++ escapeString f.mtime ++ "\x7d"

/-- `json.NewEncoder(w).Encode(files)` (main.go line 315) where `files` is
the `[]FileInfo` built by appending one element per result row: a nil slice
(no rows) encodes as the JSON literal `null`; otherwise a JSON array. The
encoder always appends a newline. -/
def encodeGoSlice : List FileTuple → String
  | [] => "null\n"
  | x :: xs =>
    "[" ++ encodeFileInfo x
      ++ (xs.foldl (fun acc y => acc ++ "," ++ encodeFileInfo y) "") ++ "]\n"

/-- An HTTP response: status code and body text. `http.Error` writes the
message followed by a newline. -/
structure HttpResponse where
  status : Nat
  body : String
deriving DecidableEq, Repr

/-- The `/get` handler (main.go lines 266-316) on a readable store:
missing/empty `key` or `type` → 400; `type` other than `"file"` → 400;
otherwise 200 with the JSON-encoded query results. (Store open/read
failures, which the code maps to 500, are outside this model.) -/
def handleGet (st : Store) (key ty : String) : HttpResponse :=
  if key = "" || ty = "" then ⟨400, "缺少查询参数\n"⟩
  else if ty = "file" then ⟨200, encodeGoSlice (searchFiles st key)⟩
  else ⟨400, "无效的查询类型\n"⟩

/-- Insert one file row inside the transaction
(`INSERT INTO files (path_id, filename, size, create_time) VALUES …`,
main.go lines 147-153). -/
def insertFileRow (s : RebuildState) (pid : Nat) (t : FileTuple) : RebuildState :=
  { s with
    files := s.files ++ [⟨s.nextFileId, pid, t.filename, t.size, t.mtime⟩],
    nextFileId := s.nextFileId + 1 }

/-- Process one crawled file inside the transaction (main.go lines 136-156):
look the directory up in `pathCache`; on a miss run
`INSERT OR IGNORE INTO paths (path) VALUES (?) RETURNING id` — if the path
is already present the insert is ignored, `RETURNING` produces no row and
`res.Scan` fails (`none`); otherwise a fresh row is inserted and its id
returned and cached — then insert the file row with the obtained path id. -/
def processFile (s : RebuildState) (t : FileTuple) : Option RebuildState :=
  match cacheLookup s.cache t.dir with
  | some pid => some (insertFileRow s pid t)
  | none =>
    if s.paths.any (fun r => r.path = t.dir) then
      none
    else
      let pid := s.nextPathId
      let s' : RebuildState :=
        { s with
          paths := s.paths ++ [⟨pid, t.dir⟩],
          cache := (t.dir, pid) :: s.cache,
          nextPathId := pid + 1 }
      some (insertFileRow s' pid t)

/-- The walk-and-insert loop of `scanAndSave` (main.go lines 127-165) with
an injectable unrecoverable Store error: `failAfter = some n` makes the
write for the `n`-th crawled file (0-based) fail, modelling a mid-rebuild
write failure; `none` means no injected failure. Returns `none` when any
write errors (the callback returns the error, aborting the walk). -/
def scanLoop : RebuildState → Option Nat → List FileTuple → Option RebuildState
  | s, _, [] => some s
  | s, fa, t :: ts =>
    if fa = some 0 then none
    else
      match processFile s t with
      | none => none
      | some s' => scanLoop s' (fa.map (· - 1)) ts

/-- The rebuild transaction starts from cleared tables
(`DELETE FROM files; DELETE FROM paths`, main.go line 100) with an empty
`pathCache`; on empty tables SQLite assigns ids from 1. -/
def clearedRebuildState : RebuildState := ⟨[], [], [], 1, 1⟩

/-- Outcome of one `scanAndSave` run: either the transaction committed and
`done <- true` was sent, or `tx.Rollback()` ran and `log.Fatal` terminated
the process (modelled by `fatalExit`; the recorded store is what the
rolled-back database still holds). -/
inductive ScanOutcome where
  | committed (st : Store)
  | fatalExit (st : Store)
deriving DecidableEq, Repr

/-- `scanAndSave` (main.go lines 85-178) against a committed store: open a
transaction, clear both tables inside it, replay the crawl through
`scanLoop`; on any error roll back (the committed store is untouched) and
`log.Fatal`; otherwise commit the pending state as the new store. -/
def scanAndSave (committed : Store) (tuples : List FileTuple)
    (failAfter : Option Nat) : ScanOutcome :=
  match scanLoop clearedRebuildState failAfter tuples with
  | none => ScanOutcome.fatalExit committed
  | some s => ScanOutcome.committed ⟨s.paths, s.files⟩

/-- The committed store an outcome leaves behind. -/
def ScanOutcome.store : ScanOutcome → Store
  | .committed st => st
  | .fatalExit st => st

/-- Whether the outcome terminated the process (`log.Fatal` = `os.Exit(1)`). -/
def ScanOutcome.exits : ScanOutcome → Bool
  | .committed _ => false
  | .fatalExit _ => true

/-- Decidable no-orphans check: every file row's `path_id` resolves to some
`paths` row. -/
def noOrphans (paths : List PathRow) (files : List FileRow) : Bool :=
  files.all (fun f => paths.any (fun r => r.id == f.path_id))

/-- Decidable statement that the `pathCache` agrees exactly with the
`paths` table: every cache entry names an existing row with that id, and
every row's path is cached and maps to that row's id. -/
def cacheMatchesPaths (s : RebuildState) : Bool :=
  s.cache.all (fun e => s.paths.any (fun r => r.id == e.2 && r.path == e.1)) &&
  s.paths.all (fun r => cacheLookup s.cache r.path == some r.id)

/-- The observable startup steps of `main` (main.go lines 206-262). -/
inductive StartupEvent where
  | initSchema
  | fullScan
  | scheduleStart
  | serverStart
deriving DecidableEq, Repr

/-- Startup sequencing (main.go lines 212-229): if `sql.db` does not exist,
initialize the schema, run a full scan and block on its `done` channel
before continuing; if it exists, skip straight to scheduling and serving.
The existence check on `sql.db` is the only input. -/
def startupEvents (dbExists : Bool) : List StartupEvent :=
  if dbExists then
    [StartupEvent.scheduleStart, StartupEvent.serverStart]
  else
    [StartupEvent.initSchema, StartupEvent.fullScan,
     StartupEvent.scheduleStart, StartupEvent.serverStart]

/-- Modelled from main.go lines 249-263 plus the documented dispatch of
robfig/cron v3 used there: `cron.New()` is built with no `SkipIfStillRunning`
or `DelayIfStillRunning` wrapper, and the scheduler runs each due job in a
fresh goroutine, so every trigger unconditionally starts a `scanAndSave`
run. With the daily schedule firing at times `k*period` and each run taking
`dur` time units, run `k` is active during `[k*period, k*period+dur)`;
`activeScans` counts the runs active at time `t`. -/
def activeScans (period dur t : Nat) : Nat :=
  (List.range (t / period + 1)).countP
    (fun k => decide (k * period ≤ t ∧ t < k * period + dur))

/-- A concrete committed store used as a test fixture: one directory row and
one file row. -/
def exampleStore : Store :=
  ⟨[⟨1, "/data"⟩], [⟨1, 1, "abc", 3, "2024-01-01T00:00:00Z"⟩]⟩

/-- The result tuple of the single file in `exampleStore`. -/
def exampleRecord : FileTuple := ⟨"/data", "abc", 3, "2024-01-01T00:00:00Z"⟩

/-- A concrete crawler tuple used as a test fixture. -/
def exampleTuple : FileTuple := ⟨"/data", "a.txt", 5, "2024-01-01"⟩

/-- A second crawler tuple in a different directory. -/
def exampleTuple2 : FileTuple := ⟨"/data/img", "photo.png", 7, "2024-01-02"⟩

/-- The rebuild state `scanLoop` reaches from the cleared state on
`[exampleTuple]`. -/
def exampleScanState : RebuildState :=
  ⟨[⟨1, "/data"⟩], [⟨1, 1, "a.txt", 5, "2024-01-01"⟩], [("/data", 1)], 2, 2⟩

/-- The store produced by a full (uninterrupted) rebuild over the crawl
output `l`; the pre-rebuild store is irrelevant because the rebuild clears
the tables first, so it is taken empty. -/
def rebuildStore (l : List FileTuple) : Store :=
  (scanAndSave ⟨[], []⟩ l none).store

/-- The invariant of the rebuild transaction after the files in `processed`
have been handled, starting from the cleared tables: all surrogate ids are
below the next id and pairwise distinct, the `pathCache` is sound and
complete with respect to the pending `paths` table, every pending file row
resolves through the join, and the join of the pending tables reproduces
exactly the processed crawl tuples. -/
structure StateInv (s : RebuildState) (processed : List FileTuple) : Prop where
  idBound : ∀ r ∈ s.paths, r.id < s.nextPathId
  idsNodup : (s.paths.map PathRow.id).Nodup
  cacheEntries : ∀ e ∈ s.cache, (⟨e.2, e.1⟩ : PathRow) ∈ s.paths
  cacheComplete : ∀ r ∈ s.paths, cacheLookup s.cache r.path = some r.id
  resolveAll : ∀ f ∈ s.files, (s.paths.find? (fun p => p.id == f.path_id)).isSome = true
  joinEq : resultTuples s.paths s.files = processed

/-! ### Lemmas about SQLite LIKE matching -/

theorem likeMatch_nil (s : List Char) : likeMatch [] s = s.isEmpty := by
  rw [likeMatch]

theorem likeMatch_pct_nil (ps : List Char) :
    likeMatch ('%' :: ps) [] = likeMatch ps [] := by
  rw [likeMatch]
  simp only [if_pos rfl]
  rfl

theorem likeMatch_pct_cons (ps : List Char) (c : Char) (cs : List Char) :
    likeMatch ('%' :: ps) (c :: cs) =
      (likeMatch ps (c :: cs) || likeMatch ('%' :: ps) cs) := by
  rw [likeMatch]
  simp only [if_pos rfl]
  rfl

theorem likeMatch_lit_nil (q : Char) (ps : List Char) (hq : q ≠ '%') :
    likeMatch (q :: ps) [] = false := by
  rw [likeMatch]
  rw [if_neg hq]

theorem likeMatch_lit_cons (q : Char) (ps : List Char) (c : Char) (cs : List Char)
    (hq : q ≠ '%') :
    likeMatch (q :: ps) (c :: cs) =
      ((q = '_' || q.toLower == c.toLower) && likeMatch ps cs) := by
  rw [likeMatch]
  rw [if_neg hq]

theorem likeMatch_pct_singleton (s : List Char) : likeMatch ['%'] s = true := by
  induction s with
  | nil =>
    rw [likeMatch_pct_nil, likeMatch_nil]
    rfl
  | cons c cs ih =>
    rw [likeMatch_pct_cons, ih, Bool.or_true]

theorem noWildcards_cons (q : Char) (l : List Char) (h : noWildcards (q :: l) = true) :
    q ≠ '%' ∧ q ≠ '_' ∧ noWildcards l = true := by
  simp only [noWildcards, List.all_cons, Bool.and_eq_true, Bool.not_eq_true',
    decide_eq_false_iff_not] at h ⊢
  exact ⟨h.1.1, h.1.2, h.2⟩

theorem likeMatch_append_pct (p : List Char) (hw : noWildcards p = true) (s : List Char) :
    likeMatch (p ++ ['%']) s = startsWithCI p s := by
  induction p generalizing s with
  | nil =>
    rw [List.nil_append, likeMatch_pct_singleton]
    rfl
  | cons q ps ih =>
    obtain ⟨hq, hq', hw'⟩ := noWildcards_cons q ps hw
    cases s with
    | nil =>
      rw [List.cons_append, likeMatch_lit_nil q (ps ++ ['%']) hq]
      rfl
    | cons c cs =>
      rw [List.cons_append, likeMatch_lit_cons q (ps ++ ['%']) c cs hq, ih hw' cs]
      simp [startsWithCI, hq']

theorem likeMatch_keyPattern (p : List Char) (hw : noWildcards p = true) (s : List Char) :
    likeMatch ('%' :: (p ++ ['%'])) s = occursCI p s := by
  induction s with
  | nil =>
    rw [likeMatch_pct_nil, likeMatch_append_pct p hw]
    rfl
  | cons c cs ih =>
    rw [likeMatch_pct_cons, likeMatch_append_pct p hw, ih]
    rfl

theorem startsWithCI_eq_lowers (a b : List Char) :
    startsWithCI a b = startsWithEq (lowers a) (lowers b) := by
  induction a generalizing b with
  | nil => cases b <;> rfl
  | cons x xs ih =>
    cases b with
    | nil => rfl
    | cons y ys =>
      show (x.toLower == y.toLower && startsWithCI xs ys) = _
      rw [ih ys]
      rfl

theorem occursCI_eq_lowers (t f : List Char) :
    occursCI t f = occursIn (lowers t) (lowers f) := by
  induction f with
  | nil =>
    show startsWithCI t [] = occursIn (lowers t) []
    rw [startsWithCI_eq_lowers]
    rfl
  | cons c fs ih =>
    show (startsWithCI t (c :: fs) || occursCI t fs) = _
    rw [ih, startsWithCI_eq_lowers]
    rfl

/-! ### Lemmas about the files/paths join -/

theorem rowTuple_filename (paths : List PathRow) (f : FileRow) (t : FileTuple)
    (h : rowTuple paths f = some t) : t.filename = f.filename := by
  unfold rowTuple at h
  cases hf : paths.find? (fun p => p.id == f.path_id) with
  | none => rw [hf] at h; simp at h
  | some p =>
    rw [hf] at h
    simp only [Option.map_some', Option.some.injEq] at h
    rw [← h]

theorem resultTuples_cons_none (paths : List PathRow) (f : FileRow) (fs : List FileRow)
    (h : rowTuple paths f = none) :
    resultTuples paths (f :: fs) = resultTuples paths fs := by
  unfold resultTuples
  rw [List.filterMap_cons, h]

theorem resultTuples_cons_some (paths : List PathRow) (f : FileRow) (fs : List FileRow)
    (t : FileTuple) (h : rowTuple paths f = some t) :
    resultTuples paths (f :: fs) = t :: resultTuples paths fs := by
  unfold resultTuples
  rw [List.filterMap_cons, h]

theorem resultTuples_filter_like (paths : List PathRow) (files : List FileRow)
    (pat : List Char) :
    resultTuples paths (files.filter (fun f => likeMatch pat f.filename.data)) =
      (resultTuples paths files).filter (fun t => likeMatch pat t.filename.data) := by
  induction files with
  | nil => rfl
  | cons f fs ih =>
    rw [List.filter_cons]
    by_cases hP : likeMatch pat f.filename.data = true
    · rw [if_pos hP]
      cases hf : rowTuple paths f with
      | none =>
        rw [resultTuples_cons_none paths f _ hf, resultTuples_cons_none paths f fs hf, ih]
      | some t =>
        rw [resultTuples_cons_some paths f _ t hf, resultTuples_cons_some paths f fs t hf]
        rw [List.filter_cons]
        have ht := rowTuple_filename paths f t hf
        rw [if_pos (by rw [ht]; exact hP), ih]
    · rw [if_neg hP]
      cases hf : rowTuple paths f with
      | none => rw [resultTuples_cons_none paths f fs hf, ih]
      | some t =>
        rw [resultTuples_cons_some paths f fs t hf, List.filter_cons]
        have ht := rowTuple_filename paths f t hf
        rw [if_neg (by rw [ht]; exact hP), ih]

/-! ### C1: substring correctness of search -/

/-- C1 counterexample: the claim "T is a substring of F iff the record for F
appears in search(T)" fails on the code. SQLite `LIKE` compares
ASCII-case-insensitively, so for the stored filename `"abc"` and the search
term `"A"`, `"A"` is not a substring of `"abc"`, yet the record for `"abc"`
is returned by `search("A")`. -/
theorem search_substring_iff_cex :
    occursIn "A".data "abc".data = false ∧
      exampleRecord ∈ searchFiles exampleStore "A" := by
  constructor
  · decide
  · decide

/-- C1 amended: for search terms containing no LIKE wildcard (`%`, `_`),
a record appears in the result of `search(T)` iff it is a record of the
store's files/paths join and `T` is an ASCII-case-insensitive substring of
its filename (the directory path is never matched against). Terms that do
contain `%` or `_` are interpreted with LIKE wildcard semantics instead. -/
theorem search_matches_iff_ci_substring (st : Store) (t : String)
    (hw : noWildcards t.data = true) (ft : FileTuple) :
    ft ∈ searchFiles st t ↔
      ft ∈ resultTuples st.paths st.files ∧
        occursIn (lowers t.data) (lowers ft.filename.data) = true := by
  unfold searchFiles
  rw [resultTuples_filter_like st.paths st.files (keyPattern t)]
  rw [List.mem_filter]
  have heq : likeMatch (keyPattern t) ft.filename.data =
      occursIn (lowers t.data) (lowers ft.filename.data) := by
    show likeMatch ('%' :: (t.data ++ ['%'])) ft.filename.data = _
    rw [likeMatch_keyPattern t.data hw, occursCI_eq_lowers]
  rw [heq]

/-- Witness for the amended C1 at a concrete store and term. -/
theorem search_matches_iff_ci_substring_witness :
    noWildcards "bc".data = true ∧
      (exampleRecord ∈ searchFiles exampleStore "bc" ↔
        exampleRecord ∈ resultTuples exampleStore.paths exampleStore.files ∧
          occursIn (lowers "bc".data) (lowers exampleRecord.filename.data) = true) :=
  ⟨by decide, search_matches_iff_ci_substring exampleStore "bc" (by decide) exampleRecord⟩

/-! ### C4: empty result serialization -/

/-- C4 counterexample: a well-formed query whose term matches nothing does
return HTTP 200, but the body is the JSON literal `null` (plus the
encoder's newline) — Go's `encoding/json` marshals the never-appended nil
`[]FileInfo` slice as `null` — not an empty JSON array. -/
theorem empty_search_null_body_cex :
    handleGet exampleStore "xyz" "file" = ⟨200, "null\n"⟩ ∧
      ("null\n" : String) ≠ "[]" ∧ ("null\n" : String) ≠ "[]\n" := by
  refine ⟨by decide, by decide, by decide⟩

/-- C4 amended: for every query with a non-empty term that matches no
stored filename, the response is HTTP 200 with body the JSON literal
`null` followed by a newline (Go's encoding of the nil slice), not an
empty JSON array. -/
theorem empty_search_200_null (st : Store) (key : String) (hk : key ≠ "")
    (h : searchFiles st key = []) :
    handleGet st key "file" = ⟨200, "null\n"⟩ := by
  simp [handleGet, hk, h, encodeGoSlice]

/-- Witness for the amended C4 at a concrete store and term. -/
theorem empty_search_200_null_witness :
    (("xyz" : String) ≠ "" ∧ searchFiles exampleStore "xyz" = []) ∧
      handleGet exampleStore "xyz" "file" = ⟨200, "null\n"⟩ :=
  ⟨⟨by decide, by decide⟩, empty_search_200_null exampleStore "xyz" (by decide) (by decide)⟩

/-! ### C5: query parameter validation -/

/-- C5: the `/get` handler (on a readable store) answers 400 exactly when
the `key` parameter is missing/empty, the `type` parameter is
missing/empty, or the `type` value is anything other than `"file"`
(in Go, a missing URL parameter reads as the empty string). -/
theorem handler_400_iff (st : Store) (key ty : String) :
    (handleGet st key ty).status = 400 ↔ (key = "" ∨ ty = "" ∨ ty ≠ "file") := by
  unfold handleGet
  by_cases hk : key = ""
  · simp [hk]
  · by_cases hty : ty = ""
    · simp [hk, hty]
    · by_cases hf : ty = "file"
      · simp [hk, hty, hf]
      · simp [hk, hty, hf]

/-! ### C8: startup behaviour -/

/-- C8: at startup the full scan (and schema initialization) runs exactly
when the `sql.db` store file is absent, and then runs to completion before
the HTTP server starts; when the store file is present no crawl runs before
the first scheduled trigger. The decision depends only on the existence
check of `sql.db`. -/
theorem startup_scan_iff_absent (dbExists : Bool) :
    (StartupEvent.fullScan ∈ startupEvents dbExists ↔ dbExists = false) ∧
      (StartupEvent.initSchema ∈ startupEvents dbExists ↔ dbExists = false) ∧
      startupEvents false =
        [StartupEvent.initSchema, StartupEvent.fullScan,
         StartupEvent.scheduleStart, StartupEvent.serverStart] ∧
      startupEvents true = [StartupEvent.scheduleStart, StartupEvent.serverStart] := by
  cases dbExists <;> decide

/-! ### C2 and C3: aborted rebuilds -/

theorem scanLoop_fail (ts : List FileTuple) (s : RebuildState) (n : Nat)
    (h : n < ts.length) : scanLoop s (some n) ts = none := by
  induction ts generalizing s n with
  | nil => exact absurd h (by simp)
  | cons t ts ih =>
    cases n with
    | zero =>
      rw [scanLoop, if_pos rfl]
    | succ m =>
      rw [scanLoop, if_neg (by simp : ¬ (some (m + 1) : Option Nat) = some 0)]
      cases hp : processFile s t with
      | none => rfl
      | some s' =>
        simp only [Option.map_some']
        exact ih s' m (Nat.lt_of_succ_lt_succ h)

/-- C2: if a rebuild is aborted by an unrecoverable write error after any
number `n` of file inserts, the transaction rolls back and the store
afterwards contains exactly the pre-rebuild generation — in particular it
is still orphan-free whenever the pre-rebuild generation was. -/
theorem rebuild_abort_atomic (committed : Store) (tuples : List FileTuple) (n : Nat)
    (h : n < tuples.length)
    (hwf : noOrphans committed.paths committed.files = true) :
    (scanAndSave committed tuples (some n)).store = committed ∧
      noOrphans (scanAndSave committed tuples (some n)).store.paths
        (scanAndSave committed tuples (some n)).store.files = true := by
  have hfail := scanLoop_fail tuples clearedRebuildState n h
  unfold scanAndSave
  rw [hfail]
  exact ⟨rfl, hwf⟩

/-- Witness for C2 at a concrete store, crawl and failure point. -/
theorem rebuild_abort_atomic_witness :
    (0 < [exampleTuple].length ∧
        noOrphans exampleStore.paths exampleStore.files = true) ∧
      (scanAndSave exampleStore [exampleTuple] (some 0)).store = exampleStore :=
  ⟨⟨by decide, by decide⟩,
    (rebuild_abort_atomic exampleStore [exampleTuple] 0 (by decide) (by decide)).1⟩

/-- C3 counterexample: on a write failure mid-rebuild the code calls
`log.Fatal` (main.go line 169), i.e. `os.Exit(1)`: the outcome is
`fatalExit` — the process terminates instead of continuing to serve the
old generation, contradicting the claim that only the rebuild is aborted. -/
theorem rebuild_error_exits_cex :
    (scanAndSave exampleStore [exampleTuple2] (some 0)).exits = true ∧
      scanAndSave exampleStore [exampleTuple2] (some 0) =
        ScanOutcome.fatalExit exampleStore := by
  exact ⟨by decide, by decide⟩

/-- C3 amended: a write failure mid-rebuild rolls the transaction back
(the prior generation is preserved on disk) and the error is logged, but
via `log.Fatal` the process terminates; it does not continue running. -/
theorem rebuild_error_rolls_back_and_exits (committed : Store)
    (tuples : List FileTuple) (n : Nat) (h : n < tuples.length) :
    (scanAndSave committed tuples (some n)).exits = true ∧
      (scanAndSave committed tuples (some n)).store = committed := by
  have hfail := scanLoop_fail tuples clearedRebuildState n h
  unfold scanAndSave
  rw [hfail]
  exact ⟨rfl, rfl⟩

/-- Witness for the amended C3 at a concrete store, crawl and failure
point. -/
theorem rebuild_error_rolls_back_and_exits_witness :
    1 < [exampleTuple, exampleTuple2].length ∧
      ((scanAndSave exampleStore [exampleTuple, exampleTuple2] (some 1)).exits = true ∧
        (scanAndSave exampleStore [exampleTuple, exampleTuple2] (some 1)).store =
          exampleStore) :=
  ⟨by decide,
    rebuild_error_rolls_back_and_exits exampleStore [exampleTuple, exampleTuple2] 1
      (by decide)⟩

/-! ### C9: overlapping rebuild triggers -/

theorem countP_le_one_of_unique (l : List Nat) (p : Nat → Bool) (hn : l.Nodup)
    (h : ∀ a b, a ∈ l → b ∈ l → p a = true → p b = true → a = b) :
    l.countP p ≤ 1 := by
  rw [List.countP_eq_length_filter]
  cases hf : l.filter p with
  | nil => simp
  | cons a tl =>
    cases tl with
    | nil => simp
    | cons b tl2 =>
      exfalso
      have hnf : (l.filter p).Nodup := List.Nodup.filter p hn
      rw [hf] at hnf
      have hab : a ≠ b := by
        intro he
        exact (List.nodup_cons.mp hnf).1 (he ▸ List.mem_cons_self b tl2)
      have ha : a ∈ l.filter p := by
        rw [hf]; exact List.mem_cons_self _ _
      have hb : b ∈ l.filter p := by
        rw [hf]; exact List.mem_cons_of_mem _ (List.mem_cons_self _ _)
      have hpa := List.mem_filter.mp ha
      have hpb := List.mem_filter.mp hb
      exact hab (h a b hpa.1 hpb.1 hpa.2 hpb.2)

/-- C9 counterexample: the code installs the cron job with no
`Idle/Scanning` guard, so a trigger that fires while a rebuild is still
running starts a second one. With the daily period of 1440 minutes and a
rebuild lasting 2000 minutes, at minute 1500 two rebuild transactions are
active at once — the claimed "at most one rebuild active, overlapping
trigger is a no-op" fails. -/
theorem overlapping_rebuilds_cex : activeScans 1440 2000 1500 = 2 := by decide

/-- C9 amended: the code has no scanning-state guard — every trigger starts
a rebuild — so at most one rebuild is active at a time only under the
additional assumption that a rebuild never takes longer than the trigger
period. -/
theorem no_guard_overlap_bound (period dur : Nat) (hp : 0 < period)
    (hd : dur ≤ period) (t : Nat) : activeScans period dur t ≤ 1 := by
  unfold activeScans
  apply countP_le_one_of_unique _ _ (List.nodup_range _)
  intro a b _ _ hpa hpb
  simp only [decide_eq_true_eq] at hpa hpb
  have key : ∀ k, k * period ≤ t → t < k * period + dur → k = t / period := by
    intro k h1 h2
    have hk1 : k ≤ t / period := (Nat.le_div_iff_mul_le hp).mpr h1
    have hk2 : t / period < k + 1 := by
      apply (Nat.div_lt_iff_lt_mul hp).mpr
      calc t < k * period + dur := h2
        _ ≤ k * period + period := Nat.add_le_add_left hd _
        _ = (k + 1) * period := by ring
    omega
  rw [key a hpa.1 hpa.2, key b hpb.1 hpb.2]

/-- Witness for the amended C9 at concrete period, duration and time. -/
theorem no_guard_overlap_bound_witness :
    (0 < 1440 ∧ 1440 ≤ 1440) ∧ activeScans 1440 1440 1500 ≤ 1 :=
  ⟨⟨by decide, by decide⟩, no_guard_overlap_bound 1440 1440 (by decide) (by decide) 1500⟩

/-! ### The rebuild invariant (C6, C7, C10) -/

theorem find?_append_isSome {α : Type} (l1 l2 : List α) (p : α → Bool)
    (h : (l1.find? p).isSome = true) : (l1 ++ l2).find? p = l1.find? p := by
  induction l1 with
  | nil => simp at h
  | cons a as ih =>
    rw [List.cons_append]
    cases hpa : p a with
    | true => rw [List.find?_cons_of_pos _ hpa, List.find?_cons_of_pos _ hpa]
    | false =>
      have hpa' : ¬ p a = true := by simp [hpa]
      rw [List.find?_cons_of_neg _ hpa', List.find?_cons_of_neg _ hpa']
      apply ih
      rwa [List.find?_cons_of_neg _ hpa'] at h

theorem find?_append_none {α : Type} (l1 l2 : List α) (p : α → Bool)
    (h : l1.find? p = none) : (l1 ++ l2).find? p = l2.find? p := by
  induction l1 with
  | nil => rw [List.nil_append]
  | cons a as ih =>
    have hpa : ¬ p a = true := by
      intro hp
      rw [List.find?_cons_of_pos _ hp] at h
      exact Option.noConfusion h
    rw [List.find?_cons_of_neg _ hpa] at h
    rw [List.cons_append, List.find?_cons_of_neg _ hpa]
    exact ih h

theorem filterMap_congr_mem {α β : Type} (l : List α) (f g : α → Option β)
    (h : ∀ a ∈ l, f a = g a) : l.filterMap f = l.filterMap g := by
  induction l with
  | nil => rfl
  | cons a as ih =>
    rw [List.filterMap_cons, List.filterMap_cons, h a (List.mem_cons_self a as),
      ih (fun x hx => h x (List.mem_cons_of_mem a hx))]

theorem cacheLookup_mem (l : List (String × Nat)) (d : String) (v : Nat)
    (h : cacheLookup l d = some v) : (d, v) ∈ l := by
  induction l with
  | nil => exact Option.noConfusion h
  | cons e es ih =>
    rw [cacheLookup] at h
    by_cases he : e.1 = d
    · rw [if_pos he] at h
      injection h with hv
      have hed : e = (d, v) := by
        cases e
        simp only at he hv
        rw [he, hv]
      rw [← hed]
      exact List.mem_cons_self e es
    · rw [if_neg he] at h
      exact List.mem_cons_of_mem _ (ih h)

theorem find?_id_of_mem_nodup (paths : List PathRow) (pid : Nat) (d : String)
    (hmem : (⟨pid, d⟩ : PathRow) ∈ paths) (hnd : (paths.map PathRow.id).Nodup) :
    paths.find? (fun p => p.id == pid) = some ⟨pid, d⟩ := by
  induction paths with
  | nil => exact absurd hmem (List.not_mem_nil _)
  | cons r rs ih =>
    rw [List.map_cons, List.nodup_cons] at hnd
    rcases List.mem_cons.mp hmem with heq | hmem'
    · rw [← heq]
      exact List.find?_cons_of_pos _ (by simp)
    · have hpid : pid ∈ rs.map PathRow.id :=
        List.mem_map.mpr ⟨⟨pid, d⟩, hmem', rfl⟩
      have hr : ¬ (r.id == pid) = true := by
        simp only [beq_iff_eq]
        intro he
        exact hnd.1 (he ▸ hpid)
      rw [@List.find?_cons_of_neg _ (fun p => p.id == pid) r rs hr]
      exact ih hmem' hnd.2

theorem stateInv_init : StateInv clearedRebuildState [] := by
  refine ⟨?_, ?_, ?_, ?_, ?_, rfl⟩
  · intro r hr
    exact absurd hr (List.not_mem_nil _)
  · exact List.nodup_nil
  · intro e he
    exact absurd he (List.not_mem_nil _)
  · intro r hr
    exact absurd hr (List.not_mem_nil _)
  · intro f hf
    exact absurd hf (List.not_mem_nil _)

theorem processFile_step (s : RebuildState) (t : FileTuple) (processed : List FileTuple)
    (hinv : StateInv s processed) :
    ∃ s', processFile s t = some s' ∧ StateInv s' (processed ++ [t]) := by
  cases hc : cacheLookup s.cache t.dir with
  | some pid =>
    have hrow : (⟨pid, t.dir⟩ : PathRow) ∈ s.paths :=
      hinv.cacheEntries (t.dir, pid) (cacheLookup_mem s.cache t.dir pid hc)
    have hfind : s.paths.find? (fun p => p.id == pid) = some ⟨pid, t.dir⟩ :=
      find?_id_of_mem_nodup s.paths pid t.dir hrow hinv.idsNodup
    have hnewrow : rowTuple s.paths ⟨s.nextFileId, pid, t.filename, t.size, t.mtime⟩ =
        some t := by
      simp only [rowTuple]
      rw [hfind]
      rfl
    refine ⟨insertFileRow s pid t, ?_, ?_⟩
    · unfold processFile
      rw [hc]
    · refine ⟨hinv.idBound, hinv.idsNodup, hinv.cacheEntries, hinv.cacheComplete, ?_, ?_⟩
      · intro f hf
        rcases List.mem_append.mp hf with h1 | h2
        · exact hinv.resolveAll f h1
        · rw [List.mem_singleton.mp h2]
          show (s.paths.find? (fun p => p.id == pid)).isSome = true
          rw [hfind]
          rfl
      · show resultTuples s.paths
          (s.files ++ [(⟨s.nextFileId, pid, t.filename, t.size, t.mtime⟩ : FileRow)]) =
          processed ++ [t]
        unfold resultTuples
        rw [List.filterMap_append]
        have hj : List.filterMap (rowTuple s.paths) s.files = processed := hinv.joinEq
        have hsingle : List.filterMap (rowTuple s.paths)
            [(⟨s.nextFileId, pid, t.filename, t.size, t.mtime⟩ : FileRow)] = [t] := by
          rw [List.filterMap_cons, hnewrow, List.filterMap_nil]
        rw [hj, hsingle]
  | none =>
    have hguard : (s.paths.any (fun r => decide (r.path = t.dir))) = false := by
      rw [List.any_eq_false]
      intro r hr
      simp only [decide_eq_true_eq]
      intro he
      have hcomp := hinv.cacheComplete r hr
      rw [he, hc] at hcomp
      exact Option.noConfusion hcomp
    have hnotin : ∀ r ∈ s.paths, r.path ≠ t.dir := by
      intro r hr he
      have hfalse := List.any_eq_false.mp hguard r hr
      simp [he] at hfalse
    have hfindold : s.paths.find? (fun p => p.id == s.nextPathId) = none := by
      rw [List.find?_eq_none]
      intro r hr
      simp only [beq_iff_eq]
      exact Nat.ne_of_lt (hinv.idBound r hr)
    have hfindnew : (s.paths ++ [(⟨s.nextPathId, t.dir⟩ : PathRow)]).find?
        (fun p => p.id == s.nextPathId) = some ⟨s.nextPathId, t.dir⟩ := by
      rw [find?_append_none _ _ _ hfindold]
      exact List.find?_cons_of_pos _ (by simp)
    refine ⟨insertFileRow
        { s with
          paths := s.paths ++ [⟨s.nextPathId, t.dir⟩],
          cache := (t.dir, s.nextPathId) :: s.cache,
          nextPathId := s.nextPathId + 1 } s.nextPathId t, ?_, ?_⟩
    · unfold processFile
      rw [hc]
      simp [hguard]
    · constructor
      · intro r hr
        rcases List.mem_append.mp hr with h1 | h2
        · exact Nat.lt_succ_of_lt (hinv.idBound r h1)
        · rw [List.mem_singleton.mp h2]
          exact Nat.lt_succ_self _
      · show ((s.paths ++ [(⟨s.nextPathId, t.dir⟩ : PathRow)]).map PathRow.id).Nodup
        rw [List.map_append]
        show (List.map PathRow.id s.paths ++ [s.nextPathId]).Nodup
        rw [List.nodup_append]
        refine ⟨hinv.idsNodup, List.nodup_singleton _, ?_⟩
        intro a ha hb
        rw [List.mem_singleton] at hb
        rw [hb] at ha
        obtain ⟨r, hr, hid⟩ := List.mem_map.mp ha
        exact absurd hid (Nat.ne_of_lt (hinv.idBound r hr))
      · intro e he
        rcases List.mem_cons.mp he with h1 | h2
        · rw [h1]
          exact List.mem_append.mpr (Or.inr (List.mem_singleton.mpr rfl))
        · exact List.mem_append.mpr (Or.inl (hinv.cacheEntries e h2))
      · intro r hr
        rcases List.mem_append.mp hr with h1 | h2
        · show cacheLookup ((t.dir, s.nextPathId) :: s.cache) r.path = some r.id
          rw [cacheLookup]
          rw [if_neg (fun he => hnotin r h1 (he.symm))]
          exact hinv.cacheComplete r h1
        · rw [List.mem_singleton.mp h2]
          show cacheLookup ((t.dir, s.nextPathId) :: s.cache) t.dir = some s.nextPathId
          rw [cacheLookup, if_pos rfl]
      · intro f hf
        rcases List.mem_append.mp hf with h1 | h2
        · have hold := hinv.resolveAll f h1
          show ((s.paths ++ [(⟨s.nextPathId, t.dir⟩ : PathRow)]).find?
            (fun p => p.id == f.path_id)).isSome = true
          rw [find?_append_isSome _ _ _ hold]
          exact hold
        · rw [List.mem_singleton.mp h2]
          show ((s.paths ++ [(⟨s.nextPathId, t.dir⟩ : PathRow)]).find?
            (fun p => p.id == s.nextPathId)).isSome = true
          rw [hfindnew]
          rfl
      · show resultTuples (s.paths ++ [(⟨s.nextPathId, t.dir⟩ : PathRow)])
          (s.files ++ [(⟨s.nextFileId, s.nextPathId, t.filename, t.size, t.mtime⟩ : FileRow)]) =
          processed ++ [t]
        unfold resultTuples
        rw [List.filterMap_append]
        have hcong : List.filterMap (rowTuple (s.paths ++ [(⟨s.nextPathId, t.dir⟩ : PathRow)])) s.files
            = List.filterMap (rowTuple s.paths) s.files := by
          apply filterMap_congr_mem
          intro f hf
          unfold rowTuple
          rw [find?_append_isSome _ _ _ (hinv.resolveAll f hf)]
        have hnewrow : rowTuple (s.paths ++ [(⟨s.nextPathId, t.dir⟩ : PathRow)])
            ⟨s.nextFileId, s.nextPathId, t.filename, t.size, t.mtime⟩ = some t := by
          simp only [rowTuple]
          rw [hfindnew]
          rfl
        have hsingle : List.filterMap (rowTuple (s.paths ++ [(⟨s.nextPathId, t.dir⟩ : PathRow)]))
            [(⟨s.nextFileId, s.nextPathId, t.filename, t.size, t.mtime⟩ : FileRow)] = [t] := by
          rw [List.filterMap_cons, hnewrow, List.filterMap_nil]
        have hj : List.filterMap (rowTuple s.paths) s.files = processed := hinv.joinEq
        rw [hcong, hsingle, hj]

theorem scanLoop_inv (ts : List FileTuple) (s : RebuildState) (processed : List FileTuple)
    (hinv : StateInv s processed) :
    ∃ s', scanLoop s none ts = some s' ∧ StateInv s' (processed ++ ts) := by
  induction ts generalizing s processed with
  | nil => exact ⟨s, rfl, by simpa using hinv⟩
  | cons t ts ih =>
    obtain ⟨s1, hp, hinv1⟩ := processFile_step s t processed hinv
    obtain ⟨s', hloop, hinv'⟩ := ih s1 (processed ++ [t]) hinv1
    refine ⟨s', ?_, ?_⟩
    · rw [scanLoop, if_neg (by simp : ¬ (none : Option Nat) = some 0), hp]
      simpa using hloop
    · have heq : (processed ++ [t]) ++ ts = processed ++ (t :: ts) := by
        rw [List.append_assoc, List.singleton_append]
      rw [← heq]
      exact hinv'

/-- C6: within one rebuild (started from the cleared tables), every file
record's owning directory record is inserted before the file record, so at
every point of the rebuild — after any number of processed crawl tuples —
no file row references a missing `paths` row. -/
theorem rebuild_no_orphan_references (tuples : List FileTuple) (s : RebuildState)
    (h : scanLoop clearedRebuildState none tuples = some s) :
    noOrphans s.paths s.files = true := by
  obtain ⟨s', hloop, hinv⟩ := scanLoop_inv tuples clearedRebuildState [] stateInv_init
  rw [h] at hloop
  injection hloop with hs
  rw [hs]
  rw [noOrphans, List.all_eq_true]
  intro f hf
  have hres := hinv.resolveAll f hf
  obtain ⟨r, hr⟩ := Option.isSome_iff_exists.mp hres
  rw [List.any_eq_true]
  exact ⟨r, List.mem_of_find?_eq_some hr,
    @List.find?_some _ (fun p => p.id == f.path_id) r s'.paths hr⟩

/-- Witness for C6 at a concrete crawl. -/
theorem rebuild_no_orphan_references_witness :
    scanLoop clearedRebuildState none [exampleTuple] = some exampleScanState ∧
      noOrphans exampleScanState.paths exampleScanState.files = true :=
  ⟨by decide, rebuild_no_orphan_references [exampleTuple] exampleScanState (by decide)⟩

/-- C10: a rebuild started from the cleared tables never hits the no-row
error branch of the `INSERT OR IGNORE … RETURNING id` scan (the loop always
returns `some`), and throughout it the path cache's key set is exactly the
set of directory paths stored in the pending `paths` table, each key mapped
to that row's id. -/
theorem rebuild_cache_consistent (tuples : List FileTuple) :
    ∃ s, scanLoop clearedRebuildState none tuples = some s ∧
      cacheMatchesPaths s = true := by
  obtain ⟨s, hloop, hinv⟩ := scanLoop_inv tuples clearedRebuildState [] stateInv_init
  refine ⟨s, hloop, ?_⟩
  rw [cacheMatchesPaths, Bool.and_eq_true]
  constructor
  · rw [List.all_eq_true]
    intro e he
    rw [List.any_eq_true]
    exact ⟨⟨e.2, e.1⟩, hinv.cacheEntries e he, by simp⟩
  · rw [List.all_eq_true]
    intro r hr
    have hcomp := hinv.cacheComplete r hr
    simp [hcomp]

theorem rebuildStore_resultTuples (l : List FileTuple) :
    resultTuples (rebuildStore l).paths (rebuildStore l).files = l := by
  obtain ⟨s, hloop, hinv⟩ := scanLoop_inv l clearedRebuildState [] stateInv_init
  unfold rebuildStore scanAndSave
  rw [hloop]
  show resultTuples s.paths s.files = l
  have hj := hinv.joinEq
  rwa [List.nil_append] at hj

/-- C7: rebuilding over the same crawl output, in any visit order, yields
the same set of (path, filename, size, timestamp) tuples in the Store: a
tuple is in the joined result of the rebuilt store exactly when it is in
the crawl output, so permuting the crawl leaves the result set unchanged. -/
theorem rebuild_order_independent (l1 l2 : List FileTuple) (hp : l1.Perm l2)
    (t : FileTuple) :
    (t ∈ resultTuples (rebuildStore l1).paths (rebuildStore l1).files ↔
      t ∈ resultTuples (rebuildStore l2).paths (rebuildStore l2).files) := by
  rw [rebuildStore_resultTuples, rebuildStore_resultTuples]
  exact hp.mem_iff

/-- Witness for C7 at a concrete pair of permuted crawls. -/
theorem rebuild_order_independent_witness :
    ([exampleTuple, exampleTuple2].Perm [exampleTuple2, exampleTuple]) ∧
      (exampleTuple ∈ resultTuples (rebuildStore [exampleTuple, exampleTuple2]).paths
          (rebuildStore [exampleTuple, exampleTuple2]).files ↔
        exampleTuple ∈ resultTuples (rebuildStore [exampleTuple2, exampleTuple]).paths
          (rebuildStore [exampleTuple2, exampleTuple]).files) :=
  ⟨by decide, rebuild_order_independent _ _ (by decide) exampleTuple⟩
